import Mathlib

/-!
Verification of the bulk email sender (src/template.rs, src/email.rs, src/config.rs).

Strings are modelled as `List Char` (Rust `str::chars()` iterates Unicode scalar
values, which `Char` matches).  Machine integers (`usize`, `u64`) are modelled as
`Nat`; the one place where `usize` subtraction can underflow (the throttle guard
`i < recipients.len() - 1` in `send_bulk`) is modelled with a checked subtraction
so that the potential panic is representable.  External effects (SMTP transport,
filesystem reads, address parsing from the `lettre` crate) are modelled as oracle
parameters; the code under verification is the control flow around them.
-/

namespace EmailSender

/-- Left curly brace character, by code point. -/
def lbrace : Char := Char.ofNat 123

/-- Right curly brace character, by code point. -/
def rbrace : Char := Char.ofNat 125

/-- Model of `template.rs` `Recipient { email, args }`.  The Rust `HashMap<String,String>`
has an unspecified iteration order; it is modelled as an association list whose
list order is the iteration order used by `render_text`'s `for` loop. -/
structure Recipient where
  email : String
  args : List (String × String)
  deriving DecidableEq

/-- Model of `template.rs` `EmailTemplate`.  `PathBuf`s are modelled as strings. -/
structure EmailTemplate where
  id : String
  name : String
  subject : String
  body : String
  attachment_paths : List String
  recipients : List Recipient
  deriving DecidableEq

/-- Model of `config.rs` `SmtpConfig`. -/
structure SmtpConfig where
  host : String
  username : String
  password : String
  from_name : String
  send_delay_ms : Nat
  deriving DecidableEq

/-- Model of `config.rs` `default_delay`, the serde default for `send_delay_ms`. -/
def default_delay : Nat := 2000

/-- Model of the `email.rs` `SendProgress` event enum. -/
inductive SendProgress where
  | Sent (index : Nat) (email : String)
  | Failed (index : Nat) (email : String) (error : String)
  | Done
  deriving DecidableEq

/-! ### Template renderer (`template.rs`) -/

/-- If `pat` is a prefix of `s`, return the rest of `s` after it; else `none`.
Used to model one match attempt of Rust `str::replace`. -/
def tryDrop : List Char → List Char → Option (List Char)
  | [], s => some s
  | _ :: _, [] => none
  | p :: ps, c :: cs => if p = c then tryDrop ps cs else none

/-- One left-to-right scan of Rust `str::replace(pat, rep)`: replace each
non-overlapping occurrence of `pat`, scanning left to right.  `fuel` bounds the
recursion; with nonempty `pat` each step consumes at least one input character,
so `fuel = s.length` computes the replacement exactly (all call sites pass the
pattern `\x7bkey\x7d`, which is nonempty). -/
def replaceFuel (pat rep : List Char) : Nat → List Char → List Char
  | 0, s => s
  | _ + 1, [] => []
  | fuel + 1, c :: rest =>
    match tryDrop pat (c :: rest) with
    | some rest2 => rep ++ replaceFuel pat rep fuel rest2
    | none => c :: replaceFuel pat rep fuel rest

/-- Rust `s.replace(pat, rep)` for nonempty `pat`. -/
def listReplace (pat rep s : List Char) : List Char :=
  replaceFuel pat rep s.length s

/-- Model of `template.rs` `render_text`: starting from `text`, for each `(key, value)`
pair of the args map in iteration order, replace every occurrence of
`\x7bkey\x7d` in the accumulated result with `value`. -/
def render_text (text : List Char) (args : List (String × String)) : List Char :=
  args.foldl (fun result kv => listReplace (lbrace :: (kv.1.data ++ [rbrace])) kv.2.data result) text

/-- The inner `for inner in chars.by_ref()` loop of `extract_placeholders`:
collect characters up to (and consuming) the next `\x7d`; if none exists,
consume to end of input.  Returns the collected key span and the rest. -/
def splitKey : List Char → List Char × List Char
  | [] => ([], [])
  | c :: rest =>
    if c = rbrace then ([], rest)
    else
      let p := splitKey rest
      (c :: p.1, p.2)

/-- The push guard of `extract_placeholders`:
`if !key.is_empty() && !placeholders.contains(&key) { placeholders.push(key) }`. -/
def scanInsert (acc : List String) (key : String) : List String :=
  if key ≠ ( "" ) ∧ ¬ key ∈ acc then acc ++ [key] else acc

/-- The outer `while let Some(c) = chars.next()` loop of `extract_placeholders`.
`fuel` bounds the recursion; each step consumes at least one input character, so
`fuel = input.length` runs the loop to completion. -/
def extractFuel : Nat → List Char → List String → List String
  | 0, _, acc => acc
  | _ + 1, [], acc => acc
  | fuel + 1, c :: rest, acc =>
    if c = lbrace then
      let p := splitKey rest
      extractFuel fuel p.2 (scanInsert acc (String.mk p.1))
    else extractFuel fuel rest acc

/-- The placeholder scan over one character sequence. -/
def scan_keys (l : List Char) : List String := extractFuel l.length l []

/-- Model of `template.rs` `extract_placeholders`: scan `format!("{} {}", subject, body)`,
i.e. subject, a space, then body. -/
def extract_placeholders (subject body : String) : List String :=
  scan_keys (subject.data ++ ' ' :: body.data)

/-! ### Message builder (`email.rs`) -/

/-- Model of the `email.rs` `strip_html_tags` character loop, carrying the `inside_tag`
flag.  `<` sets the flag (and is dropped), `>` clears it (and is dropped), any
other character is kept iff the flag is clear. -/
def strip_go : Bool → List Char → List Char
  | _, [] => []
  | inside, c :: rest =>
    if c = '<' then strip_go true rest
    else if c = '>' then strip_go false rest
    else if inside then strip_go inside rest
    else c :: strip_go inside rest

/-- Model of `email.rs` `strip_html_tags`, starting outside any tag. -/
def strip_html_tags (l : List Char) : List Char := strip_go false l

/-- The characters of the string `<br>`. -/
def br_chars : List Char := '<' :: 'b' :: 'r' :: '>' :: []

/-- Model of the `email.rs` `build_message` step `rendered_body.replace('\n', "<br>")`. -/
def newline_to_br : List Char → List Char
  | [] => []
  | c :: rest => (if c = '\n' then br_chars else [c]) ++ newline_to_br rest

/-- Model of the fixed HTML document shell of `email.rs` `build_message`, wrapped around the
rendered body. -/
def htmlShell (inner : String) : String :=
  ( "<!DOCTYPE html><html><head><meta charset=\"UTF-8\"></head><body style=\"font-family: Arial, sans-serif; font-size: 14px; color: #222;\">" )
    ++ inner ++ ( "</body></html>" )

/-- One attachment part of the built message: filename plus the raw file bytes. -/
structure AttachmentPart where
  filename : String
  bytes : List Nat
  deriving DecidableEq

/-- Model of the `MultiPart::alternative` part: plain-text fallback plus HTML variant. -/
structure AltPart where
  plain : String
  html : String
  deriving DecidableEq

/-- The body structure of a built message: either the alternative part alone
(no attachments) or a `MultiPart::mixed` wrapper holding the alternative part
plus one part per successfully read attachment. -/
inductive MessageBody where
  | alternativeOnly (alt : AltPart)
  | mixed (alt : AltPart) (attachments : List AttachmentPart)
  deriving DecidableEq

/-- The assembled message modelled by the claims: envelope fields plus body
structure.  The random Message-ID header (uuid + wall-clock timestamp) is an
external effect not modelled here; no claim concerns it. -/
structure BuiltMessage where
  from_addr : String
  reply_to : String
  to_addr : String
  subject : String
  body : MessageBody
  deriving DecidableEq

/-- Model of `email.rs` `build_message`.  `parseOk` is the oracle for `lettre`'s mail
address parser (the three `.parse()?` calls); `fsRead` is the oracle for
`std::fs::read` (`none` models a missing/unreadable file, matching the
`if let Ok(file_bytes)` guard); `fileNameOf` is the oracle for
`Path::file_name`, with the literal `attachment` fallback of the source.  Error
strings of the parse failures are modelled abstractly (the claims treat error
text as opaque). -/
def build_message (parseOk : String → Bool) (fsRead : String → Option (List Nat))
    (fileNameOf : String → Option String) (config : SmtpConfig)
    (template : EmailTemplate) (recipient : Recipient) : Except String BuiltMessage :=
  let fromAddr := config.from_name ++ ( " <" ) ++ config.username ++ ( ">" )
  if parseOk fromAddr = false then Except.error ( "invalid from address" )
  else if parseOk config.username = false then Except.error ( "invalid reply_to address" )
  else if parseOk recipient.email = false then Except.error ( "invalid to address" )
  else
    let rendered_subject := String.mk (render_text template.subject.data recipient.args)
    let rendered_body := render_text template.body.data recipient.args
    let html_body := htmlShell (String.mk (newline_to_br rendered_body))
    let plain_body := String.mk (strip_html_tags rendered_body)
    let alt : AltPart := { plain := plain_body, html := html_body }
    if template.attachment_paths = [] then
      Except.ok { from_addr := fromAddr, reply_to := config.username, to_addr := recipient.email,
                  subject := rendered_subject, body := MessageBody.alternativeOnly alt }
    else
      Except.ok { from_addr := fromAddr, reply_to := config.username, to_addr := recipient.email,
                  subject := rendered_subject,
                  body := MessageBody.mixed alt (template.attachment_paths.filterMap fun p =>
                    Option.map
                      (fun bytes => { filename := Option.getD (fileNameOf p) ( "attachment" ),
                                      bytes := bytes })
                      (fsRead p)) }

/-! ### Bulk dispatcher (`email.rs` `send_bulk`) -/

/-- Outcome of processing one recipient, abstracting the two external calls of
the loop body: `build_message` (which may fail) and, when it succeeds,
`transport.send` (which may fail). -/
inductive RecipientOutcome where
  | buildOk_sendOk
  | buildOk_sendErr (error : String)
  | buildErr (error : String)
  deriving DecidableEq

/-- Observable actions of the spawned dispatcher thread, in program order:
calls into `build_message`, calls into `transport.send`, events pushed to the
progress channel, and `thread::sleep` calls. -/
inductive Action where
  | buildCall (index : Nat)
  | sendCall (index : Nat)
  | emit (e : SendProgress)
  | sleep (ms : Nat)
  deriving DecidableEq

/-- The single progress event of one loop iteration, per the source `match`:
`Sent` on build+send success, `Failed` with the recipient's email otherwise. -/
def recipientEvent (i : Nat) (email : String) : RecipientOutcome → SendProgress
  | RecipientOutcome.buildOk_sendOk => SendProgress.Sent i email
  | RecipientOutcome.buildOk_sendErr e => SendProgress.Failed i email e
  | RecipientOutcome.buildErr e => SendProgress.Failed i email e

/-- The actions of one loop iteration before the throttle check: the
`build_message` call, the `transport.send` call when the build succeeded, and
the one emitted event. -/
def iterActs (i : Nat) (email : String) : RecipientOutcome → List Action
  | RecipientOutcome.buildOk_sendOk =>
      [Action.buildCall i, Action.sendCall i, Action.emit (SendProgress.Sent i email)]
  | RecipientOutcome.buildOk_sendErr e =>
      [Action.buildCall i, Action.sendCall i, Action.emit (SendProgress.Failed i email e)]
  | RecipientOutcome.buildErr e =>
      [Action.buildCall i, Action.emit (SendProgress.Failed i email e)]

/-- Model of Rust `usize` subtraction: `none` models the underflow panic. -/
def checkedSub (a b : Nat) : Option Nat :=
  if b ≤ a then some (a - b) else none

/-- Model of the `for (i, recipient)` enumeration loop of
`send_bulk`, producing the thread's action trace.  `total` is
`template.recipients.len()`; the guard `i < template.recipients.len() - 1` is
evaluated inside each iteration, so its `usize` subtraction is modelled there
with `checkedSub`; `none` for the whole trace models a panic of the thread. -/
def send_bulk_go (delay total : Nat) (outcome : Nat → RecipientOutcome) :
    Nat → List Recipient → Option (List Action)
  | _, [] => some []
  | i, r :: rest =>
    match checkedSub total 1 with
    | none => none
    | some t1 =>
      Option.map
        (fun tail =>
          iterActs i r.email (outcome i)
            ++ (if i < t1 then [Action.sleep delay] else []) ++ tail)
        (send_bulk_go delay total outcome (i + 1) rest)

/-- Model of `email.rs` `send_bulk`: the action trace of the spawned thread.  `session`
is the oracle for `create_transport` (network effect); `outcome` abstracts the
per-recipient build/send results.  On session failure the thread emits one
`Failed` event with index 0, email `N/A` and the prefixed error text, then
`Done`, and returns.  Otherwise it runs the loop and emits `Done` at the end. -/
def send_bulk_trace (config : SmtpConfig) (template : EmailTemplate)
    (session : Except String Unit) (outcome : Nat → RecipientOutcome) : Option (List Action) :=
  match session with
  | Except.error e =>
      some [Action.emit (SendProgress.Failed 0 ( "N/A" ) (( "Failed to create transport: " ) ++ e)),
            Action.emit SendProgress.Done]
  | Except.ok _ =>
      Option.map (fun acts => acts ++ [Action.emit SendProgress.Done])
        (send_bulk_go config.send_delay_ms template.recipients.length outcome 0 template.recipients)

/-- Keep only the emitted progress events of a trace. -/
def actionEvent : Action → Option SendProgress
  | Action.emit e => some e
  | _ => none

/-- The progress events of a trace, in emission order. -/
def eventsOf (tr : List Action) : List SendProgress := tr.filterMap actionEvent

/-- Whether an action is a `thread::sleep` call. -/
def isSleep : Action → Bool
  | Action.sleep _ => true
  | _ => false

/-- The sleep actions of a trace, in order. -/
def sleepsOf (tr : List Action) : List Action := tr.filter isSleep

/-! ### Reference definitions used to state the claims -/

/-- Closed form of the dispatcher loop for a successfully established session:
the same actions as `send_bulk_go`, with the `usize` subtraction of the throttle
guard written as truncating `Nat` subtraction.  `send_bulk_go` is proved equal
to this whenever the loop invariant `i + l.length = total` holds. -/
def goPure (delay total : Nat) (outcome : Nat → RecipientOutcome) :
    Nat → List Recipient → List Action
  | _, [] => []
  | i, r :: rest =>
      iterActs i r.email (outcome i)
        ++ (if i < total - 1 then [Action.sleep delay] else [])
        ++ goPure delay total outcome (i + 1) rest

/-- Modelled from the spec: the raw sequence of `\x7b...\x7d` spans of one scan,
in scan order, before the non-empty and not-yet-seen filters are applied.  Used
to state the first-seen-order/deduplication claim about `extract_placeholders`. -/
def rawKeys : Nat → List Char → List String
  | 0, _ => []
  | _ + 1, [] => []
  | fuel + 1, c :: rest =>
    if c = lbrace then
      let p := splitKey rest
      String.mk p.1 :: rawKeys fuel p.2
    else rawKeys fuel rest

/-- Modelled from the spec: keep the first occurrence of a key, drop repeats. -/
def dedupInsert (acc : List String) (k : String) : List String :=
  if k ∈ acc then acc else acc ++ [k]

/-- Modelled from the spec: first-occurrence deduplication of a key sequence. -/
def firstDedup (l : List String) : List String := l.foldl dedupInsert []

/-- The alternative (plain + HTML) part built by `build_message` for a given
template body and recipient. -/
def altOf (template : EmailTemplate) (recipient : Recipient) : AltPart :=
  { plain := String.mk (strip_html_tags (render_text template.body.data recipient.args)),
    html := htmlShell (String.mk (newline_to_br (render_text template.body.data recipient.args))) }

/-! ### Concrete fixtures for witnesses -/

/-- A concrete configuration. -/
def cfg0 : SmtpConfig :=
  { host := ( "smtp.example.com" ), username := ( "user@example.com" ),
    password := ( "pw" ), from_name := ( "User" ), send_delay_ms := 2000 }

/-- A recipient with no args. -/
def rcpt (e : String) : Recipient := { email := e, args := [] }

/-- A template with no recipients. -/
def tpl0 : EmailTemplate :=
  { id := ( "t0" ), name := ( "empty" ), subject := ( "s" ), body := ( "b" ),
    attachment_paths := [], recipients := [] }

/-- A template with two recipients. -/
def tpl2 : EmailTemplate :=
  { id := ( "t2" ), name := ( "two" ), subject := ( "s" ), body := ( "b" ),
    attachment_paths := [], recipients := [rcpt ( "a@example.com" ), rcpt ( "b@example.com" )] }

/-! ### Helper lemmas: rendering -/

theorem tryDrop_ne_head {p c : Char} (ps cs : List Char) (h : p ≠ c) :
    tryDrop (p :: ps) (c :: cs) = none := by
  simp [tryDrop, h]

theorem replaceFuel_not_mem {p : Char} (ps rep : List Char) :
    ∀ (fuel : Nat) (s : List Char), ¬ p ∈ s → replaceFuel (p :: ps) rep fuel s = s := by
  intro fuel
  induction fuel with
  | zero => intro s _; rfl
  | succ n ih =>
    intro s hs
    cases s with
    | nil => rfl
    | cons c rest =>
      have hpc : p ≠ c := fun h => hs (h ▸ List.mem_cons_self c rest)
      have hrest : ¬ p ∈ rest := fun h => hs (List.mem_cons_of_mem c h)
      simp [replaceFuel, tryDrop_ne_head ps rest hpc, ih rest hrest]

theorem listReplace_not_mem {p : Char} (ps rep : List Char) (s : List Char) (h : ¬ p ∈ s) :
    listReplace (p :: ps) rep s = s :=
  replaceFuel_not_mem ps rep s.length s h

theorem render_text_no_lbrace (args : List (String × String)) :
    ∀ (text : List Char), ¬ lbrace ∈ text → render_text text args = text := by
  induction args with
  | nil => intro text _; rfl
  | cons kv rest ih =>
    intro text h
    show List.foldl _ _ (kv :: rest) = text
    rw [List.foldl_cons]
    show List.foldl _ (listReplace (lbrace :: (kv.1.data ++ [rbrace])) kv.2.data text) rest = text
    rw [listReplace_not_mem _ _ text h]
    exact ih text h

/-! ### Helper lemmas: placeholder extraction -/

theorem splitKey_no_rbrace : ∀ (l : List Char), ¬ rbrace ∈ l → splitKey l = (l, []) := by
  intro l
  induction l with
  | nil => intro _; rfl
  | cons c rest ih =>
    intro h
    have hc : c ≠ rbrace := fun hc => h (hc ▸ List.mem_cons_self c rest)
    have hrest : ¬ rbrace ∈ rest := fun hm => h (List.mem_cons_of_mem c hm)
    simp [splitKey, hc, ih hrest]

theorem extractFuel_nil (fuel : Nat) (acc : List String) : extractFuel fuel [] acc = acc := by
  cases fuel <;> rfl

theorem string_mk_ne_empty (v : List Char) (h : v ≠ []) : String.mk v ≠ ( "" ) := by
  intro he
  exact h (congrArg String.data he)

theorem extractFuel_eq_foldl :
    ∀ (fuel : Nat) (l : List Char) (acc : List String),
      extractFuel fuel l acc = (rawKeys fuel l).foldl scanInsert acc := by
  intro fuel
  induction fuel with
  | zero => intro l acc; rfl
  | succ n ih =>
    intro l acc
    cases l with
    | nil => rfl
    | cons c rest =>
      by_cases hc : c = lbrace
      · simp [extractFuel, rawKeys, hc, ih]
      · simp [extractFuel, rawKeys, hc, ih]

theorem foldl_scanInsert_eq_filter :
    ∀ (l : List String) (acc : List String),
      l.foldl scanInsert acc = (l.filter (fun k => !(k == ( "" )))).foldl dedupInsert acc := by
  intro l
  induction l with
  | nil => intro acc; rfl
  | cons k rest ih =>
    intro acc
    by_cases hk : k = ( "" )
    · simp [List.foldl_cons, List.filter_cons, hk, scanInsert, ih]
    · have : (k == ( "" )) = false := by simp [hk]
      simp [List.foldl_cons, List.filter_cons, this, ih]
      by_cases hm : k ∈ acc <;> simp [scanInsert, dedupInsert, hk, hm]

theorem scanInsert_nodup (acc : List String) (k : String) (h : acc.Nodup) :
    (scanInsert acc k).Nodup := by
  unfold scanInsert
  split
  · next hcond => simp [List.nodup_append, h, hcond.2]
  · exact h

theorem foldl_scanInsert_nodup :
    ∀ (l : List String) (acc : List String), acc.Nodup → (l.foldl scanInsert acc).Nodup := by
  intro l
  induction l with
  | nil => intro acc h; exact h
  | cons k rest ih => intro acc h; exact ih _ (scanInsert_nodup acc k h)

theorem scanInsert_no_empty (acc : List String) (k : String) (h : ¬ ( "" ) ∈ acc) :
    ¬ ( "" ) ∈ scanInsert acc k := by
  unfold scanInsert
  split
  · next hcond =>
    intro hmem
    rcases List.mem_append.mp hmem with hl | hr
    · exact h hl
    · exact hcond.1 (List.mem_singleton.mp hr).symm
  · exact h

theorem foldl_scanInsert_no_empty :
    ∀ (l : List String) (acc : List String), ¬ ( "" ) ∈ acc → ¬ ( "" ) ∈ l.foldl scanInsert acc := by
  intro l
  induction l with
  | nil => intro acc h; exact h
  | cons k rest ih => intro acc h; exact ih _ (scanInsert_no_empty acc k h)

/-! ### Helper lemmas: tag stripping -/

theorem strip_go_clean :
    ∀ (u rest : List Char), ¬ '<' ∈ u → ¬ '>' ∈ u →
      strip_go false (u ++ rest) = u ++ strip_go false rest := by
  intro u
  induction u with
  | nil => intro rest _ _; rfl
  | cons c u2 ih =>
    intro rest h1 h2
    have hc1 : c ≠ '<' := fun h => h1 (h ▸ List.mem_cons_self c u2)
    have hc2 : c ≠ '>' := fun h => h2 (h ▸ List.mem_cons_self c u2)
    have hu1 : ¬ '<' ∈ u2 := fun h => h1 (List.mem_cons_of_mem c h)
    have hu2 : ¬ '>' ∈ u2 := fun h => h2 (List.mem_cons_of_mem c h)
    simp [strip_go, hc1, hc2, ih rest hu1 hu2]

theorem strip_go_inside :
    ∀ (v rest : List Char), ¬ '>' ∈ v →
      strip_go true (v ++ rest) = strip_go true rest := by
  intro v
  induction v with
  | nil => intro rest _; rfl
  | cons c v2 ih =>
    intro rest h
    have hc : c ≠ '>' := fun hc => h (hc ▸ List.mem_cons_self c v2)
    have hv : ¬ '>' ∈ v2 := fun hm => h (List.mem_cons_of_mem c hm)
    by_cases h2 : c = '<' <;> simp [strip_go, h2, hc, ih rest hv]

theorem strip_go_true_nil (v : List Char) (h : ¬ '>' ∈ v) : strip_go true v = [] := by
  have := strip_go_inside v [] h
  simpa using this

/-! ### Helper lemmas: dispatcher -/

theorem eventsOf_iterActs (i : Nat) (email : String) (o : RecipientOutcome) :
    eventsOf (iterActs i email o) = [recipientEvent i email o] := by
  cases o <;> rfl

theorem sleepsOf_iterActs (i : Nat) (email : String) (o : RecipientOutcome) :
    sleepsOf (iterActs i email o) = [] := by
  cases o <;> rfl

theorem send_bulk_go_eq_goPure (delay total : Nat) (outcome : Nat → RecipientOutcome) :
    ∀ (l : List Recipient) (i : Nat), i + l.length = total →
      send_bulk_go delay total outcome i l = some (goPure delay total outcome i l) := by
  intro l
  induction l with
  | nil => intro i _; rfl
  | cons r rest ih =>
    intro i h
    have htot : 1 ≤ total := by
      simp [List.length_cons] at h
      omega
    have hsub : checkedSub total 1 = some (total - 1) := by
      simp [checkedSub, htot]
    have ihr := ih (i + 1) (by simp [List.length_cons] at h ⊢; omega)
    simp [send_bulk_go, goPure, hsub, ihr]

theorem goPure_events (delay total : Nat) (outcome : Nat → RecipientOutcome) :
    ∀ (l : List Recipient) (i : Nat),
      eventsOf (goPure delay total outcome i l)
        = (List.enumFrom i l).map (fun p => recipientEvent p.1 p.2.email (outcome p.1)) := by
  intro l
  induction l with
  | nil => intro i; rfl
  | cons r rest ih =>
    intro i
    have hsleep : eventsOf (if i < total - 1 then [Action.sleep delay] else []) = [] := by
      split <;> rfl
    simp only [goPure, eventsOf, List.filterMap_append, List.enumFrom, List.map_cons]
    rw [show List.filterMap actionEvent (iterActs i r.email (outcome i))
          = eventsOf (iterActs i r.email (outcome i)) from rfl,
        eventsOf_iterActs]
    rw [show List.filterMap actionEvent (if i < total - 1 then [Action.sleep delay] else [])
          = eventsOf (if i < total - 1 then [Action.sleep delay] else []) from rfl,
        hsleep]
    rw [show List.filterMap actionEvent (goPure delay total outcome (i + 1) rest)
          = eventsOf (goPure delay total outcome (i + 1) rest) from rfl,
        ih (i + 1)]
    simp

theorem goPure_sleeps (delay total : Nat) (outcome : Nat → RecipientOutcome) :
    ∀ (l : List Recipient) (i : Nat), i + l.length = total →
      sleepsOf (goPure delay total outcome i l)
        = List.replicate (l.length - 1) (Action.sleep delay) := by
  intro l
  induction l with
  | nil => intro i _; rfl
  | cons r rest ih =>
    intro i h
    have hiter := sleepsOf_iterActs i r.email (outcome i)
    cases rest with
    | nil =>
      have hni : ¬ i < total - 1 := by
        simp [List.length_cons] at h
        omega
      simp only [goPure, sleepsOf, List.filter_append] at *
      simp [hiter, hni, goPure]
    | cons r2 rest2 =>
      have hlt : i < total - 1 := by
        simp [List.length_cons] at h
        omega
      have ihr := ih (i + 1) (by simp [List.length_cons] at h ⊢; omega)
      simp only [goPure, sleepsOf, List.filter_append] at *
      simp [hiter, hlt, ihr, isSleep, List.replicate_succ]

/-! ### Claim theorems: dispatcher -/

/-- C1: for every bulk send with a successfully established session, the
dispatcher emits exactly one event per recipient index (`Sent` or `Failed`,
per the build/send outcome), in strictly increasing index order (the order of
`recipients.enum`), followed by exactly one terminal `Done` and nothing after
it; in particular a failure at index `i` never aborts the batch, the event for
index `i + 1` follows whenever it exists. -/
theorem C1_bulk_events (config : SmtpConfig) (template : EmailTemplate)
    (outcome : Nat → RecipientOutcome) :
    Option.map eventsOf (send_bulk_trace config template (Except.ok ()) outcome)
      = some ((template.recipients.enum.map
          (fun p => recipientEvent p.1 p.2.email (outcome p.1))) ++ [SendProgress.Done]) := by
  unfold send_bulk_trace
  rw [send_bulk_go_eq_goPure config.send_delay_ms template.recipients.length outcome
      template.recipients 0 (by simp)]
  have hev : eventsOf (goPure config.send_delay_ms template.recipients.length outcome 0
        template.recipients ++ [Action.emit SendProgress.Done])
      = eventsOf (goPure config.send_delay_ms template.recipients.length outcome 0
        template.recipients) ++ [SendProgress.Done] := by
    simp [eventsOf, List.filterMap_append, actionEvent]
  simp only [Option.map_some']
  rw [hev, goPure_events]
  rfl

/-- C2: for every bulk send in which session establishment fails with error
`e`, the thread's whole trace is exactly two emitted events — `Failed` with
index 0, email `N/A` and the prefixed error text, then `Done` — and no
recipient is attempted: the trace holds no `build_message` call and no
`transport.send` call, regardless of the template's recipients. -/
theorem C2_session_failure (config : SmtpConfig) (template : EmailTemplate)
    (outcome : Nat → RecipientOutcome) (e : String) :
    send_bulk_trace config template (Except.error e) outcome
      = some [Action.emit (SendProgress.Failed 0 ( "N/A" ) (( "Failed to create transport: " ) ++ e)),
              Action.emit SendProgress.Done]
    ∧ Option.map eventsOf (send_bulk_trace config template (Except.error e) outcome)
      = some [SendProgress.Failed 0 ( "N/A" ) (( "Failed to create transport: " ) ++ e),
              SendProgress.Done]
    ∧ ∀ (i : Nat),
        ¬ Action.buildCall i
            ∈ [Action.emit (SendProgress.Failed 0 ( "N/A" )
                  (( "Failed to create transport: " ) ++ e)),
               Action.emit SendProgress.Done]
        ∧ ¬ Action.sendCall i
            ∈ [Action.emit (SendProgress.Failed 0 ( "N/A" )
                  (( "Failed to create transport: " ) ++ e)),
               Action.emit SendProgress.Done] := by
  refine ⟨rfl, rfl, ?_⟩
  intro i
  constructor <;> simp

/-- C6: for every bulk send over at least one recipient with a successful
session, the dispatcher sleeps exactly `N - 1` times, each for the configured
`send_delay_ms`, and never after the last recipient; the serde default for
`send_delay_ms` is 2000 ms. -/
theorem C6_throttle (config : SmtpConfig) (template : EmailTemplate)
    (outcome : Nat → RecipientOutcome) (_h : template.recipients ≠ []) :
    Option.map sleepsOf (send_bulk_trace config template (Except.ok ()) outcome)
      = some (List.replicate (template.recipients.length - 1)
          (Action.sleep config.send_delay_ms))
    ∧ default_delay = 2000 := by
  refine ⟨?_, rfl⟩
  unfold send_bulk_trace
  rw [send_bulk_go_eq_goPure config.send_delay_ms template.recipients.length outcome
      template.recipients 0 (by simp)]
  have hsl : sleepsOf (goPure config.send_delay_ms template.recipients.length outcome 0
        template.recipients ++ [Action.emit SendProgress.Done])
      = sleepsOf (goPure config.send_delay_ms template.recipients.length outcome 0
        template.recipients) := by
    simp [sleepsOf, List.filter_append, isSleep]
  simp only [Option.map_some']
  rw [hsl, goPure_sleeps config.send_delay_ms template.recipients.length outcome
      template.recipients 0 (by simp)]

/-- C6 witness: a concrete two-recipient send sleeps exactly once, for the
configured delay. -/
theorem C6_throttle_witness :
    tpl2.recipients ≠ []
    ∧ (Option.map sleepsOf (send_bulk_trace cfg0 tpl2 (Except.ok ())
          (fun _ => RecipientOutcome.buildOk_sendOk))
        = some (List.replicate (tpl2.recipients.length - 1) (Action.sleep cfg0.send_delay_ms))
      ∧ default_delay = 2000) :=
  ⟨by decide, C6_throttle cfg0 tpl2 (fun _ => RecipientOutcome.buildOk_sendOk) (by decide)⟩

/-- C10: a bulk send over an empty recipient list with a successful session
emits exactly one event, `Done`, and the thread never panics: the `usize`
subtraction `recipients.len() - 1` of the throttle guard is evaluated only
inside the per-recipient loop, where the length is at least one, so no trace
of the dispatcher is the panic value `none`. -/
theorem C10_empty_recipients (config : SmtpConfig) (outcome : Nat → RecipientOutcome)
    (template : EmailTemplate) (h : template.recipients = []) :
    send_bulk_trace config template (Except.ok ()) outcome
      = some [Action.emit SendProgress.Done]
    ∧ ∀ (t2 : EmailTemplate) (session : Except String Unit),
        send_bulk_trace config t2 session outcome ≠ none := by
  constructor
  · simp [send_bulk_trace, h, send_bulk_go]
  · intro t2 session
    cases session with
    | error e => simp [send_bulk_trace]
    | ok u =>
      unfold send_bulk_trace
      rw [send_bulk_go_eq_goPure config.send_delay_ms t2.recipients.length outcome
          t2.recipients 0 (by simp)]
      simp

/-- C10 witness: the concrete empty-recipient template yields exactly the
`Done` event. -/
theorem C10_empty_recipients_witness :
    tpl0.recipients = []
    ∧ (send_bulk_trace cfg0 tpl0 (Except.ok ()) (fun _ => RecipientOutcome.buildOk_sendOk)
        = some [Action.emit SendProgress.Done]
      ∧ ∀ (t2 : EmailTemplate) (session : Except String Unit),
          send_bulk_trace cfg0 t2 session (fun _ => RecipientOutcome.buildOk_sendOk) ≠ none) :=
  ⟨rfl, C10_empty_recipients cfg0 (fun _ => RecipientOutcome.buildOk_sendOk) tpl0 rfl⟩

/-! ### Claim theorems: template renderer -/

/-- C3 counterexample: `render_text` does NOT perform all replacements against
the original text.  For the args map with pairs `a` to `\x7bb\x7d` and `b` to
`X` on the text `\x7ba\x7d`, the iteration order `a` then `b` produces `X` —
the `\x7bb\x7d` occurrence existing only inside the substituted value got
replaced — while the order `b` then `a` produces `\x7bb\x7d`; so the result is
not order-independent and is not a single scan of the original text. -/
theorem C3_render_counterexample :
    render_text (( "{a}" ).data) [(( "a" ), ( "{b}" )), (( "b" ), ( "X" ))] = ( "X" ).data
    ∧ render_text (( "{a}" ).data) [(( "b" ), ( "X" )), (( "a" ), ( "{b}" ))] = ( "{b}" ).data
    ∧ render_text (( "{a}" ).data) [(( "a" ), ( "{b}" )), (( "b" ), ( "X" ))]
        ≠ render_text (( "{a}" ).data) [(( "b" ), ( "X" )), (( "a" ), ( "{b}" ))] := by
  refine ⟨by decide, by decide, by decide⟩

/-- C3 amended: `render_text` applies the replacements sequentially, one key at
a time in the map's iteration order, each pass scanning the accumulated result
of the previous passes — rendering over a concatenation of argument lists
composes sequentially.  Consequently a `\x7bk\x7d` substring appearing only
inside an earlier-substituted value can itself be replaced by a later key (the
concrete second conjunct), and the result can depend on key-iteration order. -/
theorem C3_render_sequential :
    (∀ (text : List Char) (as2 bs : List (String × String)),
        render_text text (as2 ++ bs) = render_text (render_text text as2) bs)
    ∧ render_text (( "{a}" ).data) [(( "a" ), ( "{b}" )), (( "b" ), ( "X" ))] = ( "X" ).data := by
  refine ⟨?_, by decide⟩
  intro text as2 bs
  unfold render_text
  exact List.foldl_append _ _ _ _

/-- C4 counterexample: an unterminated `\x7b` does NOT yield no placeholder.
With subject `\x7babc` and empty body, the scan of `subject ++ space ++ body`
consumes `abc ` to end of input and pushes it as a key, so the result is the
singleton `abc ` rather than the empty list the claim requires. -/
theorem C4_unterminated_counterexample :
    extract_placeholders ( "\x7babc" ) ( "" ) = [( "abc " )]
    ∧ extract_placeholders ( "\x7babc" ) ( "" ) ≠ [] := by
  refine ⟨by decide, by decide⟩

/-- C4 amended: an unterminated `\x7b` silently consumes to end of the scanned
input, and the consumed span IS yielded as a placeholder key whenever it is
non-empty (and not already seen); only a `\x7b` that is the final character,
whose span is empty, yields no key.  Stated for a scan whose input is exactly
the unterminated placeholder. -/
theorem C4_unterminated_yields_key (v : List Char) (h1 : v ≠ []) (h2 : ¬ rbrace ∈ v) :
    scan_keys (lbrace :: v) = [String.mk v] := by
  unfold scan_keys
  simp only [List.length_cons]
  rw [show extractFuel (v.length + 1) (lbrace :: v) [] =
        extractFuel v.length (splitKey v).2 (scanInsert [] (String.mk (splitKey v).1)) from by
      simp [extractFuel]]
  rw [splitKey_no_rbrace v h2]
  simp only [extractFuel_nil]
  simp [scanInsert, string_mk_ne_empty v h1]

/-- C4 amended witness: the concrete unterminated span `abc` is yielded as the
single key. -/
theorem C4_unterminated_yields_key_witness :
    (( "abc" ).data ≠ [] ∧ ¬ rbrace ∈ ( "abc" ).data)
    ∧ scan_keys (lbrace :: ( "abc" ).data) = [String.mk (( "abc" ).data)] :=
  ⟨⟨by decide, by decide⟩, C4_unterminated_yields_key (( "abc" ).data) (by decide) (by decide)⟩

/-- C5: `extract_placeholders` returns exactly the first-occurrence
deduplication of the non-empty brace spans of the scan of subject, a joining
space, then body: each distinct key appears at most once (`Nodup`), in
first-seen scan order, and the empty key of a `\x7b\x7d` span never appears. -/
theorem C5_distinct_first_order (subject body : String) :
    extract_placeholders subject body
      = firstDedup ((rawKeys (subject.data ++ ' ' :: body.data).length
          (subject.data ++ ' ' :: body.data)).filter (fun k => !(k == ( "" ))))
    ∧ (extract_placeholders subject body).Nodup
    ∧ ¬ ( "" ) ∈ extract_placeholders subject body := by
  unfold extract_placeholders scan_keys
  refine ⟨?_, ?_, ?_⟩
  · rw [extractFuel_eq_foldl, foldl_scanInsert_eq_filter]
    rfl
  · rw [extractFuel_eq_foldl]
    exact foldl_scanInsert_nodup _ [] List.nodup_nil
  · rw [extractFuel_eq_foldl]
    exact foldl_scanInsert_no_empty _ [] (by simp)

/-- C9: rendering a text containing no `\x7b` character returns it unchanged,
for every args map; rendering `Hi \x7bname\x7d` with `name` bound to `Ada`
yields `Hi Ada`; rendering it with empty args yields it unchanged — an unbound
placeholder is left verbatim with no error. -/
theorem C9_render_identities :
    (∀ (text : List Char) (args : List (String × String)),
        ¬ lbrace ∈ text → render_text text args = text)
    ∧ render_text (( "Hi {name}" ).data) [(( "name" ), ( "Ada" ))] = ( "Hi Ada" ).data
    ∧ render_text (( "Hi {name}" ).data) [] = ( "Hi {name}" ).data := by
  refine ⟨?_, by decide, by decide⟩
  intro text args h
  exact render_text_no_lbrace args text h

/-- C9 witness: a concrete brace-free text is returned unchanged under a
non-empty args map. -/
theorem C9_render_identities_witness :
    ¬ lbrace ∈ ( "plain text" ).data
    ∧ render_text (( "plain text" ).data) [(( "k" ), ( "v" ))] = ( "plain text" ).data :=
  ⟨by decide, C9_render_identities.1 (( "plain text" ).data) [(( "k" ), ( "v" ))] (by decide)⟩

/-! ### Claim theorems: tag stripping and message building -/

/-- C8: the plain-text stripper is a left-inverse of trivial tag wrapping —
stripping `<b>hello</b> world` yields exactly `hello world` — and in general
everything between a `<` and the next `>` is omitted (for a clean prefix `u`
and a tag body `v` without `>`), while an unterminated `<` silently consumes
to end of input, leaving only the prefix before it. -/
theorem C8_strip_tags :
    strip_html_tags (( "<b>hello</b> world" ).data) = ( "hello world" ).data
    ∧ (∀ (u v w : List Char), ¬ '<' ∈ u → ¬ '>' ∈ u → ¬ '>' ∈ v →
        strip_html_tags (u ++ '<' :: (v ++ '>' :: w)) = u ++ strip_html_tags w)
    ∧ (∀ (u v : List Char), ¬ '<' ∈ u → ¬ '>' ∈ u → ¬ '>' ∈ v →
        strip_html_tags (u ++ '<' :: v) = u) := by
  refine ⟨by decide, ?_, ?_⟩
  · intro u v w hu1 hu2 hv
    unfold strip_html_tags
    rw [strip_go_clean u _ hu1 hu2]
    rw [show strip_go false ('<' :: (v ++ '>' :: w)) = strip_go true (v ++ '>' :: w) from by
      simp [strip_go]]
    rw [strip_go_inside v _ hv]
    simp [strip_go]
  · intro u v hu1 hu2 hv
    unfold strip_html_tags
    rw [strip_go_clean u _ hu1 hu2]
    rw [show strip_go false ('<' :: v) = strip_go true v from by simp [strip_go]]
    rw [strip_go_true_nil v hv]
    simp

/-- C8 witness: a concrete tag and a concrete unterminated `<` behave as the
general conjuncts state. -/
theorem C8_strip_tags_witness :
    (¬ '<' ∈ ( "ab" ).data ∧ ¬ '>' ∈ ( "ab" ).data ∧ ¬ '>' ∈ ( "cd" ).data)
    ∧ strip_html_tags (( "ab" ).data ++ '<' :: ( "cd" ).data) = ( "ab" ).data :=
  ⟨⟨by decide, by decide, by decide⟩,
    C8_strip_tags.2.2 (( "ab" ).data) (( "cd" ).data) (by decide) (by decide) (by decide)⟩

/-- C7: when the three address fields parse, `build_message` succeeds and its
body is exactly the alternative (plain + HTML) part when the template has no
attachment paths, and otherwise is the mixed wrapper holding the alternative
part plus one binary part per readable attachment, where a path whose file
read fails is omitted (dropped by the `filterMap`) without the call returning
an error for that recipient. -/
theorem C7_build_structure (parseOk : String → Bool) (fsRead : String → Option (List Nat))
    (fileNameOf : String → Option String) (config : SmtpConfig)
    (template : EmailTemplate) (recipient : Recipient)
    (h1 : parseOk (config.from_name ++ ( " <" ) ++ config.username ++ ( ">" )) = true)
    (h2 : parseOk config.username = true)
    (h3 : parseOk recipient.email = true) :
    build_message parseOk fsRead fileNameOf config template recipient
      = Except.ok
          { from_addr := config.from_name ++ ( " <" ) ++ config.username ++ ( ">" ),
            reply_to := config.username,
            to_addr := recipient.email,
            subject := String.mk (render_text template.subject.data recipient.args),
            body :=
              if template.attachment_paths = [] then
                MessageBody.alternativeOnly (altOf template recipient)
              else
                MessageBody.mixed (altOf template recipient)
                  (template.attachment_paths.filterMap fun p =>
                    Option.map
                      (fun bytes => { filename := Option.getD (fileNameOf p) ( "attachment" ),
                                      bytes := bytes })
                      (fsRead p)) } := by
  by_cases hA : template.attachment_paths = [] <;>
    simp [build_message, altOf, h1, h2, h3, hA]

/-- C7 witness: a concrete build with one readable and one unreadable
attachment path succeeds and keeps exactly the readable one. -/
theorem C7_build_structure_witness :
    ((fun _ => true : String → Bool)
        (cfg0.from_name ++ ( " <" ) ++ cfg0.username ++ ( ">" )) = true
      ∧ (fun _ => true : String → Bool) cfg0.username = true
      ∧ (fun _ => true : String → Bool) (rcpt ( "a@example.com" )).email = true)
    ∧ build_message (fun _ => true)
        (fun p => if p = ( "good.bin" ) then some [104, 105] else none)
        (fun p => if p = ( "good.bin" ) then some ( "good.bin" ) else none)
        cfg0
        { id := ( "t7" ), name := ( "witness" ), subject := ( "s" ), body := ( "b" ),
          attachment_paths := [( "good.bin" ), ( "missing.bin" )],
          recipients := [] }
        (rcpt ( "a@example.com" ))
      = Except.ok
          { from_addr := cfg0.from_name ++ ( " <" ) ++ cfg0.username ++ ( ">" ),
            reply_to := cfg0.username,
            to_addr := (rcpt ( "a@example.com" )).email,
            subject := String.mk (render_text (( "s" ).data) (rcpt ( "a@example.com" )).args),
            body :=
              if [( "good.bin" ), ( "missing.bin" )] = ([] : List String) then
                MessageBody.alternativeOnly (altOf
                  { id := ( "t7" ), name := ( "witness" ), subject := ( "s" ), body := ( "b" ),
                    attachment_paths := [( "good.bin" ), ( "missing.bin" )],
                    recipients := [] } (rcpt ( "a@example.com" )))
              else
                MessageBody.mixed (altOf
                  { id := ( "t7" ), name := ( "witness" ), subject := ( "s" ), body := ( "b" ),
                    attachment_paths := [( "good.bin" ), ( "missing.bin" )],
                    recipients := [] } (rcpt ( "a@example.com" )))
                  ([( "good.bin" ), ( "missing.bin" )].filterMap fun p =>
                    Option.map
                      (fun bytes => { filename := Option.getD
                                        ((fun q => if q = ( "good.bin" )
                                           then some ( "good.bin" ) else none) p)
                                        ( "attachment" ),
                                      bytes := bytes })
                      (if p = ( "good.bin" ) then some [104, 105] else none)) } :=
  ⟨⟨rfl, rfl, rfl⟩,
    C7_build_structure (fun _ => true)
      (fun p => if p = ( "good.bin" ) then some [104, 105] else none)
      (fun p => if p = ( "good.bin" ) then some ( "good.bin" ) else none)
      cfg0
      { id := ( "t7" ), name := ( "witness" ), subject := ( "s" ), body := ( "b" ),
        attachment_paths := [( "good.bin" ), ( "missing.bin" )], recipients := [] }
      (rcpt ( "a@example.com" )) rfl rfl rfl⟩

end EmailSender
